import Mathlib

/-!
Shallow embedding of `export.py` (woranov/discord-export).

The program batch-drives the external DiscordChatExporter CLI over
(community, channel) pairs declared in an INI-style configuration store,
tracking a per-channel incremental watermark (the "after" field).

Modelling conventions:
* `configparser.ConfigParser` stores are modelled as an ordered association
  list of sections, each an ordered association list of (option, value)
  string pairs.  Section and option lookups take the first match, as the
  parser keeps sections/options unique.  The implicit empty DEFAULT section
  is not modelled (it contributes nothing to any lookup when empty).
* Python `datetime.datetime` values are modelled abstractly by the two
  observations the program makes of them: `int(d.timestamp())` (an integer
  epoch) and `d.isoformat()` (a string).  `datetime.fromisoformat` is
  stdlib parsing external to the program and is passed as a parameter.
* `subprocess.check_output` is external: its outcome per invocation is a
  parameter (exit code plus captured stderr text, or an operator interrupt
  raised during the call).
* Python string ops (`in`, `str.lower`, `"-".join`, `partition(".")`,
  truthiness of `Optional[int]`) are modelled by executable functions below.
* Exceptions are modelled with `Except` / explicit error fields; an
  in-place `config.set` becomes a function returning the updated store.
-/

namespace DiscordExport

/-! ## Python string primitives -/

/-- Does the character list `l` start with `needle`?  (Helper for `in`.) -/
def startsList : List Char → List Char → Bool
  | [], _ => true
  | _ :: _, [] => false
  | a :: as, b :: bs => a = b && startsList as bs

/-- Helper for `pyContains`: does `needle` occur in the list? -/
def containsList (needle : List Char) : List Char → Bool
  | [] => needle.isEmpty
  | l@(_ :: rest) => startsList needle l || containsList needle rest

/-- Python `needle in hay` on strings (substring containment). -/
def pyContains (hay needle : String) : Bool :=
  containsList needle.data hay.data

/-- Python `sep.join(parts)`. -/
def strJoin (sep : String) : List String → String
  | [] => ""
  | [x] => x
  | x :: xs => x ++ sep ++ strJoin sep xs

/-- Python `s.partition(".")`, splitting at the first dot; returns the parts
before and after the separator (the part after is `""` when no dot occurs,
matching Python's 3-tuple with the middle component dropped). -/
def partitionDot (s : String) : String × String :=
  go s.data []
where
  go : List Char → List Char → String × String
    | [], acc => (⟨acc.reverse⟩, "")
    | c :: rest, acc =>
      if c = '.' then (⟨acc.reverse⟩, ⟨rest⟩) else go rest (c :: acc)

/-- ASCII lower-casing of one character (what `str.lower` does on the
ASCII configuration keys and format names this program handles). -/
def lowerChar (c : Char) : Char :=
  if 65 ≤ c.toNat ∧ c.toNat ≤ 90 then Char.ofNat (c.toNat + 32) else c

/-- Python `s.lower()`. -/
def pyLower (s : String) : String :=
  ⟨s.data.map lowerChar⟩

/-- Decimal digit value of a character. -/
def digitVal (c : Char) : Option Nat :=
  if 48 ≤ c.toNat ∧ c.toNat ≤ 57 then some (c.toNat - 48) else none

/-- Accumulate a decimal numeral; `none` on any non-digit. -/
def digitsToNat : List Char → Nat → Option Nat
  | [], acc => some acc
  | c :: rest, acc =>
    match digitVal c with
    | none => none
    | some d => digitsToNat rest (10 * acc + d)

/-- Python `int(s)` on the plain (optionally negated) decimal numerals this
program feeds it; `none` models the `ValueError`. -/
def pyInt (s : String) : Option Int :=
  match s.data with
  | [] => none
  | '-' :: rest =>
    match rest with
    | [] => none
    | _ => (digitsToNat rest 0).map (fun n => -(n : Int))
  | l => (digitsToNat l 0).map (fun n => (n : Int))

/-- `configparser`'s boolean coercion (`BOOLEAN_STATES[value.lower()]`). -/
def parseBool (s : String) : Option Bool :=
  let l := pyLower s
  if l = "1" ∨ l = "yes" ∨ l = "true" ∨ l = "on" then some true
  else if l = "0" ∨ l = "no" ∨ l = "false" ∨ l = "off" then some false
  else none

/-! ## Datetime model -/

/-- A `datetime.datetime`, by the two observations the program makes:
`int(d.timestamp())` and `d.isoformat()`. -/
structure DateTime where
  epoch : Int
  iso : String
deriving DecidableEq, Repr

/-! ## Configuration store -/

/-- One section body: ordered (option, value) pairs. -/
abbrev Options := List (String × String)

/-- A `ConfigParser` store: ordered (section-name, body) pairs. -/
abbrev Config := List (String × Options)

/-- First-match lookup of an option inside a section body. -/
def lookupOpt : Options → String → Option String
  | [], _ => none
  | (k, v) :: rest, key => if k = key then some v else lookupOpt rest key

/-- `config[section]`: first-match section lookup. -/
def Config.items (c : Config) (section_ : String) : Option Options :=
  match c with
  | [] => none
  | (s, opts) :: rest => if s = section_ then some opts else Config.items rest section_

/-- `config.get(section, key)`; `none` models `NoSectionError`/`NoOptionError`. -/
def Config.get (c : Config) (section_ key : String) : Option String :=
  (c.items section_).bind (fun opts => lookupOpt opts key)

/-- `config.options(section)`; `none` models `NoSectionError`. -/
def Config.optionKeys (c : Config) (section_ : String) : Option (List String) :=
  (c.items section_).map (fun opts => opts.map Prod.fst)

/-- Does the store have this section? -/
def Config.hasSection (c : Config) (section_ : String) : Bool :=
  (c.items section_).isSome

/-- Set an option inside a section body: replace the value in place if the
option exists, else append it (Python dict/`SectionProxy` semantics). -/
def setOpts : Options → String → String → Options
  | [], key, v => [(key, v)]
  | (k, w) :: rest, key, v =>
    if k = key then (key, v) :: rest else (k, w) :: setOpts rest key v

/-- `config.set(section, key, v)`; `none` models `NoSectionError` on a
missing section, otherwise the updated store. -/
def Config.set (c : Config) (section_ key v : String) : Option Config :=
  match c with
  | [] => none
  | (s, opts) :: rest =>
    if s = section_ then some ((s, setOpts opts key v) :: rest)
    else (Config.set rest section_ key v).map (fun r => (s, opts) :: r)

/-! ## Token -/

structure Token where
  token : String
  bot : Bool
deriving DecidableEq, Repr

/-- `Token.args`: `["-t", token] + (["-b"] if bot else [])`. -/
def Token.args (t : Token) : List String :=
  ["-t", t.token] ++ (if t.bot then ["-b"] else [])

/-- `Token.from_config`: read the mandatory `token` option and the optional
boolean `bot` option (fallback `True`).  Errors model the uncaught
`configparser` exceptions (`NoSectionError`/`NoOptionError`/`ValueError`). -/
def Token.from_config (tokens_config : Config) (token_name : String := "main") :
    Except String Token :=
  match tokens_config.get token_name "token" with
  | none => .error "NoSectionError/NoOptionError: token"
  | some tok =>
    match tokens_config.get token_name "bot" with
    | none => .ok ⟨tok, true⟩
    | some b =>
      match parseBool b with
      | none => .error "ValueError: not a boolean"
      | some isBot => .ok ⟨tok, isBot⟩

/-! ## Export job descriptor -/

structure Guild where
  id : Int
  name : String
deriving DecidableEq, Repr

structure Channel where
  id : Int
  name : String
deriving DecidableEq, Repr

structure Export where
  guild : Guild
  channel : Channel
  token_name : String := "main"
  output_format : String := "json"
  datetime_format : String := "u"
  after : Option DateTime := none
  partition : Option Int := none
deriving DecidableEq, Repr

/-- Extension selection inside `Export.filename` (lines 72-82): substring
checks against the lowercased output format; the lowercased format itself
in the final `else`. -/
def extFor (output_format : String) : String :=
  let lowered := pyLower output_format
  if pyContains lowered "json" then "json"
  else if pyContains lowered "csv" then "csv"
  else if pyContains lowered "html" then "html"
  else if pyContains lowered "text" then "txt"
  else lowered

/-- Python truthiness of an `Optional[int]`: `None` and `0` are falsy. -/
def intOptTruthy : Option Int → Bool
  | none => false
  | some n => n != 0

/-- `Export.filename`: `time = self.after or utcnow()` (a `datetime` is
always truthy, so `after` wins whenever present); `nowEpoch` is
`int(utcnow().timestamp())` at the moment of computation. -/
def Export.filename (e : Export) (nowEpoch : Int) : String :=
  let time : Int :=
    match e.after with
    | some d => d.epoch
    | none => nowEpoch
  let timestamp := toString time
  let nm := strJoin "-" [e.guild.name, e.channel.name, toString e.channel.id, timestamp]
  nm ++ "." ++ extFor e.output_format

/-- `Export.args(out_dir)`: the ordered argument fragment for the external
exporter.  `if self.after:` is presence (a `datetime` is always truthy);
`if self.partition:` is integer truthiness, so `0` appends nothing. -/
def Export.args (e : Export) (out_dir : String) (nowEpoch : Int) : List String :=
  let out : List String :=
    ["-c", toString e.channel.id,
     "-o", out_dir ++ "/" ++ e.filename nowEpoch,
     "-f", e.output_format,
     "--dateformat", e.datetime_format]
  let out :=
    match e.after with
    | some a => out ++ ["--after", a.iso]
    | none => out
  let out :=
    match e.partition with
    | some p => if p != 0 then out ++ ["-p", toString p] else out
    | none => out
  out

/-! ## Configuration → descriptor mapping (`Export.from_config`) -/

/-- A coerced configuration value: `value()` yields an `int` for
`"partition"`, a `datetime` for `"after"`, and a raw string otherwise. -/
inductive CfgValue
  | vstr (s : String)
  | vint (n : Int)
  | vdt (d : DateTime)
deriving DecidableEq, Repr

/-- `Export._fields` of the `NamedTuple`, in declaration order. -/
def exportFields : List String :=
  ["guild", "channel", "token_name", "output_format", "datetime_format",
   "after", "partition"]

/-- The `key_aliases` table: `token → token_name`, `format → output_format`. -/
def aliasKey (key : String) : String :=
  if key = "token" then "token_name"
  else if key = "format" then "output_format"
  else key

/-- The inner `value(key, section)` helper: coerce `"partition"` with
`getint`, `"after"` with `fromisoformat`, pass recognized field names
through as strings, and drop everything else (`None`).  Errors model the
uncaught `ValueError`s of the coercions. -/
def cfgValue (parseISO : String → Option DateTime) (config : Config)
    (key : String) (section_ : String) : Except String (Option CfgValue) :=
  if key = "partition" then
    match config.get section_ key with
    | none => .error "NoOptionError"
    | some s =>
      match pyInt s with
      | none => .error "ValueError: invalid literal for int"
      | some n => .ok (some (.vint n))
  else if key = "after" then
    match config.get section_ key with
    | none => .error "NoOptionError"
    | some s =>
      match parseISO s with
      | none => .error "ValueError: invalid isoformat string"
      | some d => .ok (some (.vdt d))
  else if exportFields.contains (aliasKey key) then
    match config.get section_ key with
    | none => .error "NoOptionError"
    | some s => .ok (some (.vstr s))
  else
    .ok none

/-- A Python dict keyed by field name, in insertion order. -/
abbrev CfgDict := List (String × CfgValue)

/-- Python dict assignment: overwrite in place if present, else append. -/
def dictInsert (d : CfgDict) (key : String) (v : CfgValue) : CfgDict :=
  match d with
  | [] => [(key, v)]
  | (k, w) :: rest =>
    if k = key then (key, v) :: rest else (k, w) :: dictInsert rest key v

/-- First-match dict lookup. -/
def dictLookup : CfgDict → String → Option CfgValue
  | [], _ => none
  | (k, v) :: rest, key => if k = key then some v else dictLookup rest key

/-- Python `{**a, **b}`: insert all of `b` over `a`. -/
def dictMerge (a b : CfgDict) : CfgDict :=
  b.foldl (fun acc kv => dictInsert acc kv.1 kv.2) a

/-- Accumulating loop of the `section_data` dict comprehension. -/
def sectionDataGo (parseISO : String → Option DateTime) (config : Config)
    (section_ : String) : List String → CfgDict → Except String CfgDict
  | [], acc => .ok acc
  | k :: rest, acc =>
    match cfgValue parseISO config k section_ with
    | .error e => .error e
    | .ok none => sectionDataGo parseISO config section_ rest acc
    | .ok (some v) =>
      sectionDataGo parseISO config section_ rest (dictInsert acc (aliasKey k) v)

/-- `section_data(section)`: `{alias(k): v for k in config.options(section)
if (v := value(k, section)) is not None}`. -/
def sectionData (parseISO : String → Option DateTime) (config : Config)
    (section_ : String) : Except String CfgDict :=
  match config.optionKeys section_ with
  | none => .error "NoSectionError"
  | some keys => sectionDataGo parseISO config section_ keys []

/-- Read a string field out of the merged dict, with the NamedTuple default. -/
def dictStr (d : CfgDict) (key dflt : String) : String :=
  match dictLookup d key with
  | some (.vstr s) => s
  | _ => dflt

/-- Read the `after` field out of the merged dict. -/
def dictDt (d : CfgDict) (key : String) : Option DateTime :=
  match dictLookup d key with
  | some (.vdt dt) => some dt
  | _ => none

/-- Read the `partition` field out of the merged dict. -/
def dictInt (d : CfgDict) (key : String) : Option Int :=
  match dictLookup d key with
  | some (.vint n) => some n
  | _ => none

/-- `Export.from_config(config, channel_section)`: split the section key at
the first dot, resolve the guild and channel names, then build the
descriptor from `{**section_data(guild_section), **section_data(channel_section)}`
(channel values overwrite guild values).  A `"guild"`/`"channel"` key in the
merged dict models Python's duplicate-keyword `TypeError`. -/
def Export.from_config (parseISO : String → Option DateTime)
    (config : Config) (channel_section : String) : Except String Export := do
  let (guild_id, channel_id) := partitionDot channel_section
  let some guild_name := config.get guild_id "name"
    | .error "NoSectionError/NoOptionError: guild name"
  let some channel_name := config.get channel_section "name"
    | .error "NoSectionError/NoOptionError: channel name"
  let guild_section := guild_id
  let some gid := pyInt guild_id
    | .error "ValueError: invalid literal for int"
  let some cid := pyInt channel_id
    | .error "ValueError: invalid literal for int"
  let guild : Guild := ⟨gid, guild_name⟩
  let channel : Channel := ⟨cid, channel_name⟩
  let gdata ← sectionData parseISO config guild_section
  let cdata ← sectionData parseISO config channel_section
  let merged := dictMerge gdata cdata
  if (dictLookup merged "guild").isSome ∨ (dictLookup merged "channel").isSome then
    .error "TypeError: multiple values for argument"
  else
    .ok { guild := guild, channel := channel,
          token_name := dictStr merged "token_name" "main",
          output_format := dictStr merged "output_format" "json",
          datetime_format := dictStr merged "datetime_format" "u",
          after := dictDt merged "after",
          partition := dictInt merged "partition" }

/-! ## Export runner (`run_export`) -/

/-- The recognized benign diagnostic substring. -/
def noMessagesText : String := "contains no messages for the specified period"

/-- The configuration section a job's watermark lives in:
`f"{export.guild.id}.{export.channel.id}"`. -/
def Export.sectionKey (e : Export) : String :=
  toString e.guild.id ++ "." ++ toString e.channel.id

inductive RunError
  | configError (msg : String)
  | exportError (stderrText : String)
deriving DecidableEq, Repr

/-- Outcome of the external `subprocess.check_output` call: the child's
exit code with captured stderr text, or an operator interrupt raised
during the call. -/
inductive ProcOutcome
  | exit (code : Nat) (stderrText : String)
  | interrupt
deriving DecidableEq, Repr

instance : DecidableEq (Except RunError Int) := fun a b =>
  match a, b with
  | .error x, .error y => decidable_of_iff (x = y) (by simp)
  | .ok x, .ok y => decidable_of_iff (x = y) (by simp)
  | .error _, .ok _ => isFalse (fun hc => Except.noConfusion hc)
  | .ok _, .error _ => isFalse (fun hc => Except.noConfusion hc)

/-- Observable result of one `run_export` call: the (in-place mutated)
store, the assembled child-process invocation if one was attempted, whether
the store was written back to the config file, and the return/raise. -/
structure RunResult where
  store : Config
  invocation : Option (List String)
  persisted : Bool
  result : Except RunError Int
deriving DecidableEq, Repr

/-- Shared tail of `run_export` after the try/except: `config.set` of the
channel section's `"after"` to `utcnow().isoformat()`, then the optional
write-back.  A missing section models the uncaught `NoSectionError`. -/
def finishExport (e : Export) (config : Config) (invocation : List String)
    (haveConfigFile : Bool) (now : DateTime) : RunResult :=
  match config.set e.sectionKey "after" now.iso with
  | none => ⟨config, some invocation, false, .error (.configError "NoSectionError")⟩
  | some c2 => ⟨c2, some invocation, haveConfigFile, .ok 0⟩

/-- `run_export`: resolve the token, assemble the invocation, classify the
external outcome.  Zero exit or a diagnostic containing `noMessagesText`
advance the watermark; any other non-zero exit re-raises the error carrying
the captured stderr; an interrupt returns `0` touching nothing.
`invocationEpoch` is the wall clock read inside `filename`; `now` is the
wall clock read for the watermark write. -/
def run_export (e : Export) (config tokens : Config)
    (executable out_dir : String) (haveConfigFile : Bool)
    (outcome : ProcOutcome) (invocationEpoch : Int) (now : DateTime) : RunResult :=
  match Token.from_config tokens e.token_name with
  | .error msg => ⟨config, none, false, .error (.configError msg)⟩
  | .ok token =>
    let invocation := [executable, "export"] ++ e.args out_dir invocationEpoch ++ token.args
    match outcome with
    | .interrupt => ⟨config, some invocation, false, .ok 0⟩
    | .exit code stderrText =>
      if code ≠ 0 then
        if pyContains stderrText noMessagesText then
          finishExport e config invocation haveConfigFile now
        else
          ⟨config, some invocation, false, .error (.exportError stderrText)⟩
      else
        finishExport e config invocation haveConfigFile now

/-! ## Batch orchestration (`run_all`) -/

/-- The channel jobs: sections whose name contains a dot, in store order. -/
def channelSections (config : Config) : List String :=
  (config.map Prod.fst).filter (fun s => pyContains s ".")

/-- Result of driving the batch: the sections attempted in order, the final
store, and the first propagated error if the batch aborted. -/
structure BatchResult where
  attempted : List String
  store : Config
  err : Option RunError
deriving DecidableEq, Repr

/-- The `for channel_section in channel_sections` loop of `run_all`:
build each descriptor and run it sequentially; an uncaught error from
`Export.from_config` or `run_export` aborts the batch. -/
def runJobs (parseISO : String → Option DateTime) (tokens : Config)
    (executable out_dir : String) (haveConfigFile : Bool)
    (outcomes : String → ProcOutcome) (invocationEpochs : String → Int)
    (nowOf : String → DateTime) :
    List String → Config → BatchResult
  | [], config => ⟨[], config, none⟩
  | s :: rest, config =>
    match Export.from_config parseISO config s with
    | .error msg => ⟨[s], config, some (.configError msg)⟩
    | .ok e =>
      let r := run_export e config tokens executable out_dir haveConfigFile
        (outcomes s) (invocationEpochs s) (nowOf s)
      match r.result with
      | .error err => ⟨[s], r.store, some err⟩
      | .ok _ =>
        let b := runJobs parseISO tokens executable out_dir haveConfigFile
          outcomes invocationEpochs nowOf rest r.store
        ⟨s :: b.attempted, b.store, b.err⟩

/-- `run_all`: enumerate the channel sections and drive each job. -/
def run_all (parseISO : String → Option DateTime) (config tokens : Config)
    (executable out_dir : String) (haveConfigFile : Bool)
    (outcomes : String → ProcOutcome) (invocationEpochs : String → Int)
    (nowOf : String → DateTime) : BatchResult :=
  runJobs parseISO tokens executable out_dir haveConfigFile outcomes
    invocationEpochs nowOf (channelSections config) config

/-! ## Helper lemmas -/

theorem strAppend_assoc (a b c : String) : a ++ b ++ c = a ++ (b ++ c) := by
  apply String.ext
  simp [String.data_append]

theorem strEmpty_append (s : String) : "" ++ s = s := by
  apply String.ext
  simp [String.data_append]

theorem lookupOpt_setOpts_same (opts : Options) (key v : String) :
    lookupOpt (setOpts opts key v) key = some v := by
  induction opts with
  | nil => simp [setOpts, lookupOpt]
  | cons p rest ih =>
    obtain ⟨k, w⟩ := p
    by_cases h : k = key <;> simp [setOpts, lookupOpt, h, ih]

theorem lookupOpt_setOpts_ne (opts : Options) (key v k2 : String) (h : k2 ≠ key) :
    lookupOpt (setOpts opts key v) k2 = lookupOpt opts k2 := by
  induction opts with
  | nil => simp [setOpts, lookupOpt, Ne.symm h]
  | cons p rest ih =>
    obtain ⟨k, w⟩ := p
    by_cases hk : k = key
    · subst hk
      simp [setOpts, lookupOpt, Ne.symm h]
    · simp [setOpts, lookupOpt, hk, ih]

theorem items_set_ne (c : Config) (s k v s2 : String) (c2 : Config)
    (hset : Config.set c s k v = some c2) (hne : s2 ≠ s) :
    c2.items s2 = c.items s2 := by
  induction c generalizing c2 with
  | nil => simp [Config.set] at hset
  | cons p rest ih =>
    obtain ⟨s1, opts⟩ := p
    by_cases h1 : s1 = s
    · subst h1
      simp only [Config.set, if_true, eq_self_iff_true, Option.some.injEq] at hset
      subst hset
      simp [Config.items, Ne.symm hne]
    · simp only [Config.set, if_neg h1, Option.map_eq_some'] at hset
      obtain ⟨r2, hr2, hc2⟩ := hset
      subst hc2
      by_cases h2 : s1 = s2
      · simp [Config.items, h2]
      · simp [Config.items, h2, ih r2 hr2]

theorem items_set_same (c : Config) (s k v : String) (c2 : Config)
    (hset : Config.set c s k v = some c2) :
    ∃ opts, c.items s = some opts ∧ c2.items s = some (setOpts opts k v) := by
  induction c generalizing c2 with
  | nil => simp [Config.set] at hset
  | cons p rest ih =>
    obtain ⟨s1, opts⟩ := p
    by_cases h1 : s1 = s
    · subst h1
      simp only [Config.set, if_true, eq_self_iff_true, Option.some.injEq] at hset
      subst hset
      exact ⟨opts, by simp [Config.items], by simp [Config.items]⟩
    · simp only [Config.set, if_neg h1, Option.map_eq_some'] at hset
      obtain ⟨r2, hr2, hc2⟩ := hset
      subst hc2
      obtain ⟨o, ho1, ho2⟩ := ih r2 hr2
      exact ⟨o, by simp [Config.items, h1, ho1], by simp [Config.items, h1, ho2]⟩

theorem get_set_same (c : Config) (s k v : String) (c2 : Config)
    (hset : Config.set c s k v = some c2) :
    c2.get s k = some v := by
  obtain ⟨opts, _, h2⟩ := items_set_same c s k v c2 hset
  simp [Config.get, h2, lookupOpt_setOpts_same]

theorem get_set_ne_key (c : Config) (s k v k2 : String) (c2 : Config)
    (hset : Config.set c s k v = some c2) (hk : k2 ≠ k) :
    c2.get s k2 = c.get s k2 := by
  obtain ⟨opts, h1, h2⟩ := items_set_same c s k v c2 hset
  simp [Config.get, h1, h2, lookupOpt_setOpts_ne opts k v k2 hk]

theorem set_isSome (c : Config) (s k v : String) :
    (Config.set c s k v).isSome = c.hasSection s := by
  induction c with
  | nil => simp [Config.set, Config.hasSection, Config.items]
  | cons p rest ih =>
    obtain ⟨s1, opts⟩ := p
    by_cases h1 : s1 = s
    · simp [Config.set, Config.hasSection, Config.items, h1]
    · simp only [Config.set, Config.hasSection, Config.items, h1, if_neg h1,
        Option.isSome_map]
      simpa [Config.hasSection] using ih

/-! ## Claim theorems -/

/-- C3: building a descriptor merges the community section's recognized
key/value pairs with the channel section's, channel values winning: with no
channel-level format override and `format=csv` on the community section the
descriptor's output format is `"csv"`; with `format=html` on the channel
over `format=csv` on the community it is `"html"`. -/
theorem spec_C3 (parseISO : String → Option DateTime) (gname cname : String) :
    (∃ e, Export.from_config parseISO
        [("10", [("name", gname), ("format", "csv")]),
         ("10.20", [("name", cname)])] "10.20" = .ok e ∧
      e.output_format = "csv") ∧
    (∃ e, Export.from_config parseISO
        [("10", [("name", gname), ("format", "csv")]),
         ("10.20", [("name", cname), ("format", "html")])] "10.20" = .ok e ∧
      e.output_format = "html") :=
  ⟨⟨{ guild := ⟨10, gname⟩, channel := ⟨20, cname⟩, output_format := "csv" },
     rfl, rfl⟩,
   ⟨{ guild := ⟨10, gname⟩, channel := ⟨20, cname⟩, output_format := "html" },
     rfl, rfl⟩⟩

/-- C4 counterexample: the claim's clauses fail as stated.  `"jsonCSV"`
contains `"csv"` (case-insensitively) yet the derived extension is
`"json"`, not `"csv"`; `"Xml"` matches no family yet the extension is the
lowercased `"xml"`, not the verbatim `"Xml"`. -/
theorem spec_C4_counterexample :
    extFor "jsonCSV" = "json" ∧ ("json" : String) ≠ "csv" ∧
    extFor "Xml" = "xml" ∧ ("xml" : String) ≠ "Xml" :=
  ⟨rfl, by decide, rfl, by decide⟩

/-- C4 (amended): the extension is derived by case-insensitive substring
matching applied in priority order json, csv, html, text (first match
wins, text yielding `"txt"`); a format matching no family passes through
lowercased as the extension. -/
theorem spec_C4 (fmt : String) :
    (pyContains (pyLower fmt) "json" = true → extFor fmt = "json") ∧
    (pyContains (pyLower fmt) "json" = false →
      pyContains (pyLower fmt) "csv" = true → extFor fmt = "csv") ∧
    (pyContains (pyLower fmt) "json" = false →
      pyContains (pyLower fmt) "csv" = false →
      pyContains (pyLower fmt) "html" = true → extFor fmt = "html") ∧
    (pyContains (pyLower fmt) "json" = false →
      pyContains (pyLower fmt) "csv" = false →
      pyContains (pyLower fmt) "html" = false →
      pyContains (pyLower fmt) "text" = true → extFor fmt = "txt") ∧
    (pyContains (pyLower fmt) "json" = false →
      pyContains (pyLower fmt) "csv" = false →
      pyContains (pyLower fmt) "html" = false →
      pyContains (pyLower fmt) "text" = false → extFor fmt = pyLower fmt) :=
  ⟨fun h1 => by simp [extFor, h1],
   fun h1 h2 => by simp [extFor, h1, h2],
   fun h1 h2 h3 => by simp [extFor, h1, h2, h3],
   fun h1 h2 h3 h4 => by simp [extFor, h1, h2, h3, h4],
   fun h1 h2 h3 h4 => by simp [extFor, h1, h2, h3, h4]⟩

/-- Witness for C4's amended theorem at the concrete format `"fooCSV"`. -/
theorem spec_C4_witness : extFor "fooCSV" = "csv" :=
  (spec_C4 "fooCSV").2.1 rfl rfl

/-- C5 counterexample: with a partition size present but equal to `0`, the
argument list omits `"-p"`, so "`-p` if and only if a partition size is
present" fails. -/
theorem spec_C5_counterexample :
    (({ guild := ⟨1, "g"⟩, channel := ⟨2, "c"⟩, after := some ⟨5, "ISO5"⟩, partition := some 0 } : Export).args "out" 7 =
      ["-c", "2", "-o", "out/g-c-2-5.json", "-f", "json", "--dateformat", "u",
       "--after", "ISO5"]) ∧
    ({ guild := ⟨1, "g"⟩, channel := ⟨2, "c"⟩, after := some ⟨5, "ISO5"⟩, partition := some 0 } : Export).partition ≠ none ∧
    "-p" ∉ (({ guild := ⟨1, "g"⟩, channel := ⟨2, "c"⟩, after := some ⟨5, "ISO5"⟩, partition := some 0 } : Export).args "out" 7) :=
  ⟨rfl, by decide, by decide⟩

/-- C5 (amended): the argument list is exactly, in order: `-c` channel id,
`-o` output path, `-f` format, `--dateformat` date format, then `--after`
with the ISO-8601 bound iff `after` is present, then `-p` with the
partition size iff a nonzero partition size is present; the order is a
fixed function of the descriptor alone. -/
theorem spec_C5 (e : Export) (out_dir : String) (nowEpoch : Int) :
    e.args out_dir nowEpoch =
      ["-c", toString e.channel.id,
       "-o", out_dir ++ "/" ++ e.filename nowEpoch,
       "-f", e.output_format,
       "--dateformat", e.datetime_format]
      ++ (match e.after with
          | some a => ["--after", a.iso]
          | none => ([] : List String))
      ++ (match e.partition with
          | some p => if p = 0 then ([] : List String) else ["-p", toString p]
          | none => ([] : List String)) := by
  cases ha : e.after <;> cases hp : e.partition <;>
    simp only [Export.args, ha, hp, List.append_nil] <;>
    try rfl
  case _ p =>
    by_cases hz : p = 0 <;> simp [hz]
  case _ a p =>
    by_cases hz : p = 0 <;> simp [hz, List.append_assoc]

/-- C9: with no `after` bound and output format `"json"`, the filename
ends in `".json"` and contains the guild name, channel name, and channel
id, in that order. -/
theorem spec_C9 (e : Export) (nowEpoch : Int)
    (hAfter : e.after = none) (hFmt : e.output_format = "json") :
    (∃ stem, e.filename nowEpoch = stem ++ ".json") ∧
    (∃ s1 s2 s3 s4, e.filename nowEpoch =
      s1 ++ (e.guild.name ++ (s2 ++ (e.channel.name ++
        (s3 ++ (toString e.channel.id ++ s4)))))) := by
  have hext : extFor e.output_format = "json" := by rw [hFmt]; rfl
  have hdj : ("." : String) ++ "json" = ".json" := rfl
  refine ⟨⟨strJoin "-" [e.guild.name, e.channel.name, toString e.channel.id,
            toString nowEpoch], ?_⟩,
          "", "-", "-", "-" ++ toString nowEpoch ++ ".json", ?_⟩
  · simp only [Export.filename, hAfter, hext, strAppend_assoc, hdj]
  · simp only [Export.filename, hAfter, hext, strJoin, strAppend_assoc,
      strEmpty_append, hdj]

/-- Witness for C9 at a concrete descriptor. -/
theorem spec_C9_witness :
    (∃ stem, ({ guild := ⟨1, "g"⟩, channel := ⟨2, "c"⟩ } : Export).filename 7 =
      stem ++ ".json") ∧
    (∃ s1 s2 s3 s4, ({ guild := ⟨1, "g"⟩, channel := ⟨2, "c"⟩ } : Export).filename 7 =
      s1 ++ ("g" ++ (s2 ++ ("c" ++ (s3 ++ (toString (2 : Int) ++ s4)))))) :=
  spec_C9 { guild := ⟨1, "g"⟩, channel := ⟨2, "c"⟩ } 7 rfl rfl

/-- C10: a partition field equal to `0` is treated like an absent
partition bound: the produced argument list is identical to that of the
same descriptor with no partition. -/
theorem spec_C10 (e : Export) (out_dir : String) (nowEpoch : Int)
    (h : e.partition = some 0) :
    e.args out_dir nowEpoch =
      ({ e with partition := none } : Export).args out_dir nowEpoch := by
  simp [Export.args, Export.filename, h]

/-- Witness for C10 at a concrete descriptor. -/
theorem spec_C10_witness :
    ({ guild := ⟨1, "g"⟩, channel := ⟨2, "c"⟩, partition := some 0 } : Export).args
        "out" 7 =
      ({ guild := ⟨1, "g"⟩, channel := ⟨2, "c"⟩, partition := none } : Export).args
        "out" 7 :=
  spec_C10 { guild := ⟨1, "g"⟩, channel := ⟨2, "c"⟩, partition := some 0 } "out" 7 rfl

/-- Frame facts for the shared watermark-writing tail of `run_export`. -/
theorem finishExport_frame (e : Export) (config : Config) (invocation : List String)
    (haveConfigFile : Bool) (now : DateTime) :
    (∀ s2, s2 ≠ e.sectionKey →
      (finishExport e config invocation haveConfigFile now).store.items s2 =
        config.items s2) ∧
    (∀ k2, k2 ≠ "after" →
      (finishExport e config invocation haveConfigFile now).store.get e.sectionKey k2 =
        config.get e.sectionKey k2) ∧
    ((finishExport e config invocation haveConfigFile now).store = config ∨
      (finishExport e config invocation haveConfigFile now).store.get e.sectionKey
        "after" = some now.iso) := by
  cases hset : Config.set config e.sectionKey "after" now.iso with
  | none => simp [finishExport, hset]
  | some c2 =>
    refine ⟨?_, ?_, ?_⟩
    · intro s2 hs2
      simp only [finishExport, hset]
      exact items_set_ne config e.sectionKey "after" now.iso s2 c2 hset hs2
    · intro k2 hk2
      simp only [finishExport, hset]
      exact get_set_ne_key config e.sectionKey "after" now.iso k2 c2 hset hk2
    · right
      simp only [finishExport, hset]
      exact get_set_same config e.sectionKey "after" now.iso c2 hset

/-- The error path of `finishExport` leaves the store untouched. -/
theorem finishExport_error_store (e : Export) (config : Config)
    (invocation : List String) (haveConfigFile : Bool) (now : DateTime) (err : RunError)
    (herr : (finishExport e config invocation haveConfigFile now).result = .error err) :
    (finishExport e config invocation haveConfigFile now).store = config := by
  cases hset : Config.set config e.sectionKey "after" now.iso with
  | none => simp [finishExport, hset]
  | some c2 => simp [finishExport, hset] at herr

/-- C1: a non-zero exit whose captured diagnostic contains the "no messages
for the specified period" text is a soft success: `run_export` does not
raise, behaves exactly as on a zero exit code, and sets the channel
section's `"after"` field to the current UTC timestamp in ISO-8601 form. -/
theorem spec_C1 (e : Export) (config tokens : Config) (executable out_dir : String)
    (haveConfigFile : Bool) (code : Nat) (stderrText : String)
    (invocationEpoch : Int) (now : DateTime)
    (hcode : code ≠ 0)
    (hsoft : pyContains stderrText noMessagesText = true)
    (htok : ∃ t, Token.from_config tokens e.token_name = .ok t)
    (hsec : config.hasSection e.sectionKey = true) :
    run_export e config tokens executable out_dir haveConfigFile
        (.exit code stderrText) invocationEpoch now =
      run_export e config tokens executable out_dir haveConfigFile
        (.exit 0 "") invocationEpoch now ∧
    (run_export e config tokens executable out_dir haveConfigFile
        (.exit code stderrText) invocationEpoch now).result = .ok 0 ∧
    (run_export e config tokens executable out_dir haveConfigFile
        (.exit code stderrText) invocationEpoch now).store.get e.sectionKey "after" =
      some now.iso := by
  obtain ⟨t, ht⟩ := htok
  obtain ⟨c2, hc2⟩ := Option.isSome_iff_exists.mp
    (by rw [set_isSome]; exact hsec :
      (Config.set config e.sectionKey "after" now.iso).isSome = true)
  have hrun : run_export e config tokens executable out_dir haveConfigFile
      (.exit code stderrText) invocationEpoch now =
      ⟨c2, some ([executable, "export"] ++ e.args out_dir invocationEpoch ++ t.args),
       haveConfigFile, .ok 0⟩ := by
    simp [run_export, ht, hcode, hsoft, finishExport, hc2]
  have hrun0 : run_export e config tokens executable out_dir haveConfigFile
      (.exit 0 "") invocationEpoch now =
      ⟨c2, some ([executable, "export"] ++ e.args out_dir invocationEpoch ++ t.args),
       haveConfigFile, .ok 0⟩ := by
    simp [run_export, ht, finishExport, hc2]
  refine ⟨hrun.trans hrun0.symm, ?_, ?_⟩
  · rw [hrun]
  · rw [hrun]
    exact get_set_same config e.sectionKey "after" now.iso c2 hc2

/-- Witness for C1: a concrete soft-success job advances the watermark. -/
theorem spec_C1_witness :
    (run_export { guild := ⟨1, "g"⟩, channel := ⟨2, "c"⟩ }
        [("1.2", [("name", "c"), ("after", "OLD")])] [("main", [("token", "T")])]
        "exe" "out" true (.exit 1 noMessagesText) 7 ⟨9, "NOW"⟩).store.get
      "1.2" "after" = some "NOW" :=
  (spec_C1 { guild := ⟨1, "g"⟩, channel := ⟨2, "c"⟩ }
    [("1.2", [("name", "c"), ("after", "OLD")])] [("main", [("token", "T")])]
    "exe" "out" true 1 noMessagesText 7 ⟨9, "NOW"⟩
    (by decide) (by decide) ⟨⟨"T", true⟩, rfl⟩ (by decide)).2.2

/-- C2: a non-zero exit whose diagnostic does not contain the "no messages"
pattern re-raises the error carrying the captured diagnostic text, and the
store — in particular the channel's `"after"` value — is left unchanged. -/
theorem spec_C2 (e : Export) (config tokens : Config) (executable out_dir : String)
    (haveConfigFile : Bool) (code : Nat) (stderrText : String)
    (invocationEpoch : Int) (now : DateTime)
    (hcode : code ≠ 0)
    (hhard : pyContains stderrText noMessagesText = false)
    (htok : ∃ t, Token.from_config tokens e.token_name = .ok t) :
    (run_export e config tokens executable out_dir haveConfigFile
        (.exit code stderrText) invocationEpoch now).result =
      .error (.exportError stderrText) ∧
    (run_export e config tokens executable out_dir haveConfigFile
        (.exit code stderrText) invocationEpoch now).store = config := by
  obtain ⟨t, ht⟩ := htok
  constructor <;> simp [run_export, ht, hcode, hhard]

/-- Witness for C2: a concrete hard failure leaves the store unchanged. -/
theorem spec_C2_witness :
    (run_export { guild := ⟨1, "g"⟩, channel := ⟨2, "c"⟩ }
        [("1.2", [("name", "c"), ("after", "OLD")])] [("main", [("token", "T")])]
        "exe" "out" true (.exit 1 "unrelated failure") 7 ⟨9, "NOW"⟩).result =
      .error (.exportError "unrelated failure") ∧
    (run_export { guild := ⟨1, "g"⟩, channel := ⟨2, "c"⟩ }
        [("1.2", [("name", "c"), ("after", "OLD")])] [("main", [("token", "T")])]
        "exe" "out" true (.exit 1 "unrelated failure") 7 ⟨9, "NOW"⟩).store =
      [("1.2", [("name", "c"), ("after", "OLD")])] :=
  spec_C2 { guild := ⟨1, "g"⟩, channel := ⟨2, "c"⟩ }
    [("1.2", [("name", "c"), ("after", "OLD")])] [("main", [("token", "T")])]
    "exe" "out" true 1 "unrelated failure" 7 ⟨9, "NOW"⟩
    (by decide) (by decide) ⟨⟨"T", true⟩, rfl⟩

/-- C6: the watermark write is the only store mutation `run_export`
performs — for any outcome, every section other than the job's
`"<community-id>.<channel-id>"` section and every key of that section other
than `"after"` are unchanged; either the store is untouched or its
`"after"` key was set to the current timestamp; and on the error path the
store is exactly unchanged. -/
theorem spec_C6 (e : Export) (config tokens : Config) (executable out_dir : String)
    (haveConfigFile : Bool) (outcome : ProcOutcome) (invocationEpoch : Int)
    (now : DateTime) (r : RunResult)
    (hr : run_export e config tokens executable out_dir haveConfigFile outcome
      invocationEpoch now = r) :
    (∀ s2, s2 ≠ e.sectionKey → r.store.items s2 = config.items s2) ∧
    (∀ k2, k2 ≠ "after" →
      r.store.get e.sectionKey k2 = config.get e.sectionKey k2) ∧
    (r.store = config ∨ r.store.get e.sectionKey "after" = some now.iso) ∧
    (∀ err, r.result = .error err → r.store = config) := by
  subst hr
  cases ht : Token.from_config tokens e.token_name with
  | error msg => refine ⟨?_, ?_, ?_, ?_⟩ <;> simp [run_export, ht]
  | ok t =>
    cases outcome with
    | interrupt => refine ⟨?_, ?_, ?_, ?_⟩ <;> simp [run_export, ht]
    | exit code stderrText =>
      by_cases hc : code ≠ 0
      · by_cases hsoft : pyContains stderrText noMessagesText = true
        · have hre : run_export e config tokens executable out_dir haveConfigFile
              (.exit code stderrText) invocationEpoch now =
              finishExport e config
                ([executable, "export"] ++ e.args out_dir invocationEpoch ++ t.args)
                haveConfigFile now := by
            simp [run_export, ht, hc, hsoft]
          rw [hre]
          obtain ⟨h1, h2, h3⟩ := finishExport_frame e config
            ([executable, "export"] ++ e.args out_dir invocationEpoch ++ t.args)
            haveConfigFile now
          exact ⟨h1, h2, h3, fun err herr => finishExport_error_store _ _ _ _ _ err herr⟩
        · refine ⟨?_, ?_, ?_, ?_⟩ <;>
            simp [run_export, ht, hc, hsoft]
      · have hre : run_export e config tokens executable out_dir haveConfigFile
            (.exit code stderrText) invocationEpoch now =
            finishExport e config
              ([executable, "export"] ++ e.args out_dir invocationEpoch ++ t.args)
              haveConfigFile now := by
          simp [run_export, ht, hc]
        rw [hre]
        obtain ⟨h1, h2, h3⟩ := finishExport_frame e config
          ([executable, "export"] ++ e.args out_dir invocationEpoch ++ t.args)
          haveConfigFile now
        exact ⟨h1, h2, h3, fun err herr => finishExport_error_store _ _ _ _ _ err herr⟩

/-- Witness for C6: a successful concrete job leaves an unrelated section
untouched. -/
theorem spec_C6_witness :
    (run_export { guild := ⟨1, "g"⟩, channel := ⟨2, "c"⟩ }
        [("1.2", [("name", "c")]), ("9.9", [("name", "other")])]
        [("main", [("token", "T")])]
        "exe" "out" true (.exit 0 "") 7 ⟨9, "NOW"⟩).store.items "9.9" =
      Config.items [("1.2", [("name", "c")]), ("9.9", [("name", "other")])] "9.9" :=
  (spec_C6 { guild := ⟨1, "g"⟩, channel := ⟨2, "c"⟩ }
    [("1.2", [("name", "c")]), ("9.9", [("name", "other")])]
    [("main", [("token", "T")])] "exe" "out" true (.exit 0 "") 7 ⟨9, "NOW"⟩
    _ rfl).1 "9.9" (by decide)

/-- C7: an operator interrupt during the invocation makes `run_export`
stop the job: it returns the neutral exit code `0`, does not touch the
store (no watermark update), and does not persist the store. -/
theorem spec_C7 (e : Export) (config tokens : Config) (executable out_dir : String)
    (haveConfigFile : Bool) (invocationEpoch : Int) (now : DateTime)
    (htok : ∃ t, Token.from_config tokens e.token_name = .ok t) :
    (run_export e config tokens executable out_dir haveConfigFile
        .interrupt invocationEpoch now).result = .ok 0 ∧
    (run_export e config tokens executable out_dir haveConfigFile
        .interrupt invocationEpoch now).store = config ∧
    (run_export e config tokens executable out_dir haveConfigFile
        .interrupt invocationEpoch now).persisted = false := by
  obtain ⟨t, ht⟩ := htok
  refine ⟨?_, ?_, ?_⟩ <;> simp [run_export, ht]

/-- Witness for C7 at a concrete interrupted job. -/
theorem spec_C7_witness :
    (run_export { guild := ⟨1, "g"⟩, channel := ⟨2, "c"⟩ }
        [("1.2", [("name", "c"), ("after", "OLD")])] [("main", [("token", "T")])]
        "exe" "out" true .interrupt 7 ⟨9, "NOW"⟩).store =
      [("1.2", [("name", "c"), ("after", "OLD")])] :=
  (spec_C7 { guild := ⟨1, "g"⟩, channel := ⟨2, "c"⟩ }
    [("1.2", [("name", "c"), ("after", "OLD")])] [("main", [("token", "T")])]
    "exe" "out" true 7 ⟨9, "NOW"⟩ ⟨⟨"T", true⟩, rfl⟩).2.1

/-- C8: an interrupt caught during one job does not stop the batch — the
loop records the interrupted job, leaves the store as it was, and
processes every remaining channel section exactly as it would have without
the interrupted job. -/
theorem spec_C8 (parseISO : String → Option DateTime) (tokens : Config)
    (executable out_dir : String) (haveConfigFile : Bool)
    (outcomes : String → ProcOutcome) (invocationEpochs : String → Int)
    (nowOf : String → DateTime) (s : String) (rest : List String) (config : Config)
    (hjob : ∃ e, Export.from_config parseISO config s = .ok e ∧
      ∃ t, Token.from_config tokens e.token_name = .ok t)
    (hint : outcomes s = .interrupt) :
    runJobs parseISO tokens executable out_dir haveConfigFile outcomes
        invocationEpochs nowOf (s :: rest) config =
      ⟨s :: (runJobs parseISO tokens executable out_dir haveConfigFile outcomes
          invocationEpochs nowOf rest config).attempted,
       (runJobs parseISO tokens executable out_dir haveConfigFile outcomes
          invocationEpochs nowOf rest config).store,
       (runJobs parseISO tokens executable out_dir haveConfigFile outcomes
          invocationEpochs nowOf rest config).err⟩ := by
  obtain ⟨e, he, t, ht⟩ := hjob
  simp [runJobs, he, hint, run_export, ht]

/-- Witness for C8: with the first of two jobs interrupted, the second is
still attempted, on the unchanged store. -/
theorem spec_C8_witness :
    runJobs (fun _ => none) [("main", [("token", "T")])] "exe" "out" true
        (fun _ => .interrupt) (fun _ => 7) (fun _ => ⟨9, "NOW"⟩)
        ["1.2", "1.3"]
        [("1", [("name", "G")]), ("1.2", [("name", "C")]), ("1.3", [("name", "D")])] =
      ⟨"1.2" :: (runJobs (fun _ => none) [("main", [("token", "T")])] "exe" "out" true
          (fun _ => .interrupt) (fun _ => 7) (fun _ => ⟨9, "NOW"⟩) ["1.3"]
          [("1", [("name", "G")]), ("1.2", [("name", "C")]), ("1.3", [("name", "D")])]).attempted,
       (runJobs (fun _ => none) [("main", [("token", "T")])] "exe" "out" true
          (fun _ => .interrupt) (fun _ => 7) (fun _ => ⟨9, "NOW"⟩) ["1.3"]
          [("1", [("name", "G")]), ("1.2", [("name", "C")]), ("1.3", [("name", "D")])]).store,
       (runJobs (fun _ => none) [("main", [("token", "T")])] "exe" "out" true
          (fun _ => .interrupt) (fun _ => 7) (fun _ => ⟨9, "NOW"⟩) ["1.3"]
          [("1", [("name", "G")]), ("1.2", [("name", "C")]), ("1.3", [("name", "D")])]).err⟩ :=
  spec_C8 (fun _ => none) [("main", [("token", "T")])] "exe" "out" true
    (fun _ => .interrupt) (fun _ => 7) (fun _ => ⟨9, "NOW"⟩) "1.2" ["1.3"]
    [("1", [("name", "G")]), ("1.2", [("name", "C")]), ("1.3", [("name", "D")])]
    ⟨{ guild := ⟨1, "G"⟩, channel := ⟨2, "C"⟩ }, rfl, ⟨"T", true⟩, rfl⟩ rfl

end DiscordExport
